import Mathlib

/-!
Shallow embedding of `monitor_domain.py` (DomainSentinel).

Strings are modelled as Lean `String` / `List Char`.  Python's `str.strip()`
is modelled by `pyStrip`, `re.sub(r' at 0x[0-9a-fA-F]+', '', s)` by
`removeAddrs` (leftmost, non-overlapping, greedy hex run, single pass),
`str.splitlines()` by `splitlinesAux` (covering the line breaks that occur
in whois output: LF, CR, CRLF), and the substring operator `in` by
`containsSub`.  The effectful pieces (subprocess, HTTP request, file system,
SMTP) are modelled by explicit outcome/state values threaded through
`mainTrace` / `main`.
-/

namespace DomainSentinel

/-- Python `str.strip()` whitespace class (the ASCII part used here). -/
def isPyWhitespace (c : Char) : Bool :=
  c == ' ' || c == '\t' || c == '\n' || c == '\r' || c == '\x0b' || c == '\x0c'

/-- Python `s.strip()` on a character list: drop whitespace from both ends. -/
def pyStrip (l : List Char) : List Char :=
  (l.dropWhile isPyWhitespace).rdropWhile isPyWhitespace

/-- Python `s.strip()` on strings. -/
def pyStripStr (s : String) : String :=
  String.mk (pyStrip s.data)

/-- The regex character class `[0-9a-fA-F]`. -/
def isHexDigitChar (c : Char) : Bool :=
  decide ('0' ≤ c ∧ c ≤ '9') || decide ('a' ≤ c ∧ c ≤ 'f') ||
    decide ('A' ≤ c ∧ c ≤ 'F')

/-- One pass of `re.sub(r' at 0x[0-9a-fA-F]+', '', ·)`: scan left to right;
at each position try to match a space, `at 0x` and a maximal nonempty run of
hex digits; on a match delete it and continue right after it, otherwise keep
the character and move on.  Fuel-indexed so that the recursion is structural;
`removeAddrs` instantiates the fuel with the list length, which is enough
because every step consumes at least one character. -/
def removeAddrsF : Nat → List Char → List Char
  | 0, l => l
  | _ + 1, [] => []
  | fuel + 1, ' ' :: 'a' :: 't' :: ' ' :: '0' :: 'x' :: rest =>
    if (rest.takeWhile isHexDigitChar).isEmpty then
      ' ' :: removeAddrsF fuel ('a' :: 't' :: ' ' :: '0' :: 'x' :: rest)
    else
      removeAddrsF fuel (rest.dropWhile isHexDigitChar)
  | fuel + 1, c :: cs => c :: removeAddrsF fuel cs

/-- `re.sub(r' at 0x[0-9a-fA-F]+', '', ·)` on a character list. -/
def removeAddrs (l : List Char) : List Char :=
  removeAddrsF l.length l

/-- `normalize_http_status` from `monitor_domain.py`:
`re.sub(r' at 0x[0-9a-fA-F]+', '', status_str).strip()`. -/
def normalize_http_status (s : String) : String :=
  String.mk (pyStrip (removeAddrs s.data))

/-- Python `str.splitlines()` restricted to the LF / CR / CRLF separators. -/
def splitlinesAux : List Char → List Char → List (List Char)
  | '\r' :: '\n' :: rest, acc => acc.reverse :: splitlinesAux rest []
  | '\r' :: rest, acc => acc.reverse :: splitlinesAux rest []
  | '\n' :: rest, acc => acc.reverse :: splitlinesAux rest []
  | c :: rest, acc => splitlinesAux rest (c :: acc)
  | [], acc => if acc.isEmpty then [] else [acc.reverse]

/-- `s.splitlines()` on a string, producing character-list lines. -/
def pySplitlines (s : String) : List (List Char) :=
  splitlinesAux s.data []

/-- `needle` is a leading segment of `hay` (character-wise equality). -/
def startsWithList : List Char → List Char → Bool
  | [], _ => true
  | _ :: _, [] => false
  | a :: as, b :: bs => a == b && startsWithList as bs

/-- Python's substring operator `needle in hay`. -/
def containsSub (needle : List Char) : List Char → Bool
  | [] => startsWithList needle []
  | c :: rest => startsWithList needle (c :: rest) || containsSub needle rest

/-- Python `line.split(":", 1)`: `none` when the line has no colon, otherwise
the text before and after the first colon. -/
def breakAtColon : List Char → Option (List Char × List Char)
  | [] => none
  | c :: rest =>
    if c = ':' then some ([], rest)
    else
      match breakAtColon rest with
      | some (a, b) => some (c :: a, b)
      | none => none

/-- The label searched for in the whois output. -/
def updatedDateLabel : List Char := "Updated Date:".data

/-- The scanning loop of `get_whois_updated_date`: find the first line
containing `"Updated Date:"`; if splitting it at the first colon yields a
second part, return that part stripped, otherwise keep scanning. -/
def findUpdatedDate : List (List Char) → Option (List Char)
  | [] => none
  | line :: rest =>
    if containsSub updatedDateLabel line then
      match breakAtColon line with
      | some (_, a) => some (pyStrip a)
      | none => findUpdatedDate rest
    else
      findUpdatedDate rest

/-- Outcome of `subprocess.run(["whois", domain], ...)`. -/
structure WhoisOutcome where
  raisedException : Bool
  returncode : Int
  stdout : String
deriving DecidableEq

/-- `get_whois_updated_date` from `monitor_domain.py`: `None` on an
exception or non-zero exit, otherwise the scan of the output lines. -/
def get_whois_updated_date (o : WhoisOutcome) : Option String :=
  if o.raisedException then none
  else if o.returncode ≠ 0 then none
  else (findUpdatedDate (pySplitlines o.stdout)).map String.mk

/-- Outcome of `requests.get(url, timeout=10)`: a status code, or the text
of the raised exception. -/
inductive HttpResult where
  | success (statusCode : Nat)
  | failure (excMessage : String)
deriving DecidableEq

/-- `get_http_status` from `monitor_domain.py`. -/
def get_http_status (r : HttpResult) : String :=
  match r with
  | .success code => toString code
  | .failure e => normalize_http_status ("Error: " ++ e)

/-- The two state files (`whois_record.txt`, `curl_status.txt`); `none`
means the file does not exist. -/
structure FileSystem where
  whois_record : Option String
  curl_status : Option String
deriving DecidableEq

/-- The environment a run of `main` executes in: the outcome of the whois
subprocess, the outcome of the HTTP GET, the state files on entry, and
whether the SMTP session succeeds (its failure is swallowed). -/
structure Env where
  whois : WhoisOutcome
  http : HttpResult
  fs : FileSystem
  smtpOk : Bool
deriving DecidableEq

/-- All intermediate values of the non-fatal path of `main`, named after the
Python locals. -/
structure MainTrace where
  current_updated : String
  current_http_status : String
  normalized_current_http : String
  previous_updated : String
  previous_http_status : String
  normalized_previous_http : String
  whois_changed : Bool
  http_changed : Bool
  subject : String
  body : String
  fsAfterReads : FileSystem
deriving DecidableEq

/-- The non-fatal path of `main` given the whois date `current_updated`,
returning every intermediate value. -/
def traceOf (domain : String) (env : Env) (current_updated : String) : MainTrace :=
    let current_http_status := get_http_status env.http
    let normalized_current_http := normalize_http_status current_http_status
    let whoisRead : FileSystem × String :=
      match env.fs.whois_record with
      | none => ({ env.fs with whois_record := some current_updated }, current_updated)
      | some content => (env.fs, pyStripStr content)
    let fs1 := whoisRead.1
    let previous_updated := whoisRead.2
    let httpRead : FileSystem × String :=
      match fs1.curl_status with
      | none => ({ fs1 with curl_status := some normalized_current_http }, normalized_current_http)
      | some content => (fs1, pyStripStr content)
    let fs2 := httpRead.1
    let previous_http_status := httpRead.2
    let normalized_previous_http := normalize_http_status previous_http_status
    let whois_changed := current_updated != previous_updated
    let http_changed := normalized_current_http != normalized_previous_http
    let subject :=
      if whois_changed || http_changed then domain ++ " changed" else domain ++ " same"
    let whoisLine :=
      if whois_changed then
        "Whois Updated Date changed:\n  Previous: " ++ previous_updated ++
          "\n  Current:  " ++ current_updated
      else
        "Whois Updated Date unchanged: " ++ current_updated
    let httpLine :=
      if http_changed then
        "HTTP status changed:\n  Previous: " ++ normalized_previous_http ++
          "\n  Current:  " ++ normalized_current_http
      else
        "HTTP status unchanged: " ++ normalized_current_http
    let body := String.intercalate "\n\n" [whoisLine, httpLine]
    {
      current_updated := current_updated
      current_http_status := current_http_status
      normalized_current_http := normalized_current_http
      previous_updated := previous_updated
      previous_http_status := previous_http_status
      normalized_previous_http := normalized_previous_http
      whois_changed := whois_changed
      http_changed := http_changed
      subject := subject
      body := body
      fsAfterReads := fs2
    }

/-- The non-fatal path of `main`, returning every intermediate value;
`none` exactly when `get_whois_updated_date` returns `None` (the fatal
path). -/
def mainTrace (domain : String) (env : Env) : Option MainTrace :=
  (get_whois_updated_date env.whois).map (traceOf domain env)

/-- Observable result of one run of `main`: the process exit code, the state
files on exit, every email handed to `send_email`, and the emails actually
delivered (delivery failure is logged and swallowed). -/
structure RunResult where
  exitCode : Nat
  fs : FileSystem
  emailsAttempted : List (String × String)
  emailsDelivered : List (String × String)
deriving DecidableEq

/-- Subject of the fatal-path notification. -/
def whoisErrorSubject (domain : String) : String :=
  "Error: Whois Check for " ++ domain

/-- Body of the fatal-path notification. -/
def whoisErrorBody (domain : String) : String :=
  "Could not retrieve the Updated Date from whois for " ++ domain ++ "."

/-- `main` from `monitor_domain.py` over an explicit environment. -/
def main (domain : String) (env : Env) : RunResult :=
  match mainTrace domain env with
  | none =>
    { exitCode := 1
      fs := env.fs
      emailsAttempted := [(whoisErrorSubject domain, whoisErrorBody domain)]
      emailsDelivered :=
        if env.smtpOk then [(whoisErrorSubject domain, whoisErrorBody domain)] else [] }
  | some t =>
    { exitCode := 0
      fs := { t.fsAfterReads with
                whois_record := some t.current_updated
                curl_status := some t.normalized_current_http }
      emailsAttempted := [(t.subject, t.body)]
      emailsDelivered := if env.smtpOk then [(t.subject, t.body)] else [] }

/-! ### Helper lemmas about the string primitives -/

theorem dropWhile_eq_self_of_isPrefix {p : Char → Bool} {r m : List Char}
    (hpre : r <+: m) (hm : m.dropWhile p = m) : r.dropWhile p = r := by
  cases r with
  | nil => simp
  | cons x r' =>
    obtain ⟨t, ht⟩ := hpre
    cases m with
    | nil => simp at ht
    | cons y m' =>
      have hx : x = y := by
        have h0 := congrArg List.head? ht
        simpa using h0
      subst hx
      have hpx : ¬ p x = true := by
        intro hpx
        rw [List.dropWhile_cons_of_pos hpx] at hm
        have h1 : (m'.dropWhile p).length ≤ m'.length :=
          (List.dropWhile_suffix p).length_le
        rw [hm] at h1
        simp at h1
      exact List.dropWhile_cons_of_neg hpx

theorem pyStrip_idem (l : List Char) : pyStrip (pyStrip l) = pyStrip l := by
  unfold pyStrip
  have h1 : (l.dropWhile isPyWhitespace).dropWhile isPyWhitespace
      = l.dropWhile isPyWhitespace := List.dropWhile_idempotent _ _
  have hpre : (l.dropWhile isPyWhitespace).rdropWhile isPyWhitespace
      <+: l.dropWhile isPyWhitespace := List.rdropWhile_prefix _ _
  have h2 := dropWhile_eq_self_of_isPrefix hpre h1
  rw [h2]
  exact List.rdropWhile_idempotent _ _

theorem pyStripStr_idem (s : String) : pyStripStr (pyStripStr s) = pyStripStr s := by
  simp [pyStripStr, pyStrip_idem]

theorem pyStripStr_normalize (s : String) :
    pyStripStr (normalize_http_status s) = normalize_http_status s := by
  show String.mk (pyStrip (pyStrip (removeAddrs s.data))) = normalize_http_status s
  rw [pyStrip_idem]
  rfl

theorem pyStrip_cons_of_not_ws {c : Char} (hc : isPyWhitespace c = false) (l : List Char) :
    ∃ t, pyStrip (c :: l) = c :: t := by
  unfold pyStrip
  rw [List.dropWhile_cons_of_neg (by simp [hc])]
  have hne : (c :: l).rdropWhile isPyWhitespace ≠ [] := by
    rw [Ne, List.rdropWhile_eq_nil_iff]
    push_neg
    exact ⟨c, List.mem_cons_self c l, by simp [hc]⟩
  have hpre := List.rdropWhile_prefix isPyWhitespace (c :: l)
  cases hr : (c :: l).rdropWhile isPyWhitespace with
  | nil => exact absurd hr hne
  | cons x t =>
    rw [hr] at hpre
    rw [List.cons_prefix_cons] at hpre
    exact ⟨t, by rw [hpre.1]⟩

theorem removeAddrs_cons_E (cs : List Char) :
    removeAddrs ('E' :: cs) = 'E' :: removeAddrs cs := rfl

theorem normalize_mk_E (cs : List Char) :
    ∃ t, (normalize_http_status (String.mk ('E' :: cs))).data = 'E' :: t := by
  show ∃ t, pyStrip (removeAddrs ('E' :: cs)) = 'E' :: t
  rw [removeAddrs_cons_E]
  exact pyStrip_cons_of_not_ws (by decide) _

theorem normalize_head_E {s : String} (hs : ∃ t, s.data = 'E' :: t) :
    ∃ t, (normalize_http_status s).data = 'E' :: t := by
  obtain ⟨t, ht⟩ := hs
  cases s with
  | mk l =>
    have hl : l = 'E' :: t := ht
    subst hl
    exact normalize_mk_E t

theorem ne_200_of_head_E {s : String} (hs : ∃ t, s.data = 'E' :: t) : s ≠ "200" := by
  obtain ⟨t, ht⟩ := hs
  intro h
  rw [h] at ht
  have h0 := congrArg List.head? ht
  simp at h0

theorem get_http_status_failure_head (e : String) :
    ∃ t, (get_http_status (.failure e)).data = 'E' :: t := by
  cases e with
  | mk l =>
    show ∃ t, (normalize_http_status ("Error: " ++ String.mk l)).data = 'E' :: t
    have h0 : ("Error: " ++ String.mk l) = String.mk ('E' :: ("rror: ".data ++ l)) := rfl
    rw [h0]
    exact normalize_mk_E _

/-! ### Helper lemmas about substring search and colon splitting -/

theorem startsWithList_iff (n : List Char) : ∀ h : List Char,
    startsWithList n h = true ↔ n <+: h := by
  induction n with
  | nil => intro h; simp [startsWithList]
  | cons a as ih =>
    intro h
    cases h with
    | nil => simp [startsWithList]
    | cons b bs => simp [startsWithList, List.cons_prefix_cons, ih]

theorem containsSub_iff (n : List Char) : ∀ h : List Char,
    containsSub n h = true ↔ n <:+: h := by
  intro h
  induction h with
  | nil => simp [containsSub, startsWithList_iff]
  | cons c rest ih => simp [containsSub, startsWithList_iff, ih, List.infix_cons_iff]

theorem colon_mem_of_containsSub {l : List Char}
    (h : containsSub updatedDateLabel l = true) : ':' ∈ l :=
  ((containsSub_iff _ _).mp h).subset (by decide)

theorem breakAtColon_eq_some {l : List Char} (hc : ':' ∈ l) :
    ∃ a b, breakAtColon l = some (a, b) ∧ l = a ++ ':' :: b ∧ ':' ∉ a := by
  induction l with
  | nil => simp at hc
  | cons c rest ih =>
    by_cases h : c = ':'
    · subst h
      exact ⟨[], rest, by simp [breakAtColon], rfl, by simp⟩
    · have hc' : ':' ∈ rest := by
        rcases List.mem_cons.mp hc with heq | hr
        · exact absurd heq.symm h
        · exact hr
      obtain ⟨a, b, h1, h2, h3⟩ := ih hc'
      refine ⟨c :: a, b, ?_, by rw [h2]; rfl, ?_⟩
      · simp [breakAtColon, h, h1]
      · simp only [List.mem_cons, not_or]
        exact ⟨fun heq => h heq.symm, h3⟩

theorem breakAtColon_append : ∀ a b : List Char, ':' ∉ a →
    breakAtColon (a ++ ':' :: b) = some (a, b) := by
  intro a b
  induction a with
  | nil => intro _; simp [breakAtColon]
  | cons c cs ih =>
    intro hna
    have hc : c ≠ ':' := by
      intro hcc
      exact hna (by rw [hcc]; exact List.mem_cons_self _ _)
    have hna' : ':' ∉ cs := fun hm => hna (List.mem_cons_of_mem _ hm)
    simp [breakAtColon, hc, ih hna']

/-! ### Helper lemmas about the whois scanning loop -/

theorem findUpdatedDate_eq_none : ∀ lines : List (List Char),
    (∀ l ∈ lines, containsSub updatedDateLabel l = false) →
    findUpdatedDate lines = none := by
  intro lines
  induction lines with
  | nil => intro _; rfl
  | cons line rest ih =>
    intro h
    have h1 := h line (List.mem_cons_self _ _)
    simp only [findUpdatedDate, h1, Bool.false_eq_true, if_false]
    exact ih fun l hl => h l (List.mem_cons_of_mem _ hl)

theorem findUpdatedDate_append : ∀ pre rest : List (List Char),
    (∀ l ∈ pre, containsSub updatedDateLabel l = false) →
    findUpdatedDate (pre ++ rest) = findUpdatedDate rest := by
  intro pre rest
  induction pre with
  | nil => intro _; rfl
  | cons q qs ih =>
    intro h
    have hq := h q (List.mem_cons_self _ _)
    simp only [List.cons_append, findUpdatedDate, hq, Bool.false_eq_true, if_false]
    exact ih fun l hl => h l (List.mem_cons_of_mem _ hl)

theorem findUpdatedDate_cons_found {line : List Char} (rest : List (List Char))
    (hline : containsSub updatedDateLabel line = true)
    {a b : List Char} (h1 : breakAtColon line = some (a, b)) :
    findUpdatedDate (line :: rest) = some (pyStrip b) := by
  simp [findUpdatedDate, hline, h1]

theorem findUpdatedDate_stripped : ∀ (lines : List (List Char)) (v : List Char),
    findUpdatedDate lines = some v → pyStrip v = v := by
  intro lines
  induction lines with
  | nil => intro v h; simp [findUpdatedDate] at h
  | cons line rest ih =>
    intro v h
    by_cases hc : containsSub updatedDateLabel line = true
    · rw [findUpdatedDate, if_pos hc] at h
      cases hb : breakAtColon line with
      | none =>
        rw [hb] at h
        exact ih v h
      | some pr =>
        obtain ⟨a, b⟩ := pr
        rw [hb] at h
        have hv : pyStrip b = v := by
          simpa using h
        rw [← hv]
        exact pyStrip_idem b
    · rw [findUpdatedDate, if_neg hc] at h
      exact ih v h

/-! ### Helper lemmas about the orchestrator -/

theorem mainTrace_eq_some_iff {domain : String} {env : Env} {t : MainTrace} :
    mainTrace domain env = some t ↔
      ∃ cu, get_whois_updated_date env.whois = some cu ∧ t = traceOf domain env cu := by
  unfold mainTrace
  cases h : get_whois_updated_date env.whois <;> simp [eq_comm]

theorem mainTrace_some (domain : String) {env : Env} {cu : String}
    (h : get_whois_updated_date env.whois = some cu) :
    mainTrace domain env = some (traceOf domain env cu) := by
  unfold mainTrace
  rw [h]
  rfl

theorem mainTrace_none (domain : String) {env : Env}
    (h : get_whois_updated_date env.whois = none) :
    mainTrace domain env = none := by
  unfold mainTrace
  rw [h]
  rfl

theorem main_eq_of_trace {domain : String} {env : Env} {t : MainTrace}
    (h : mainTrace domain env = some t) :
    main domain env =
      { exitCode := 0
        fs := { whois_record := some t.current_updated
                curl_status := some t.normalized_current_http }
        emailsAttempted := [(t.subject, t.body)]
        emailsDelivered := if env.smtpOk then [(t.subject, t.body)] else [] } := by
  unfold main
  rw [h]

theorem main_eq_of_none {domain : String} {env : Env}
    (h : mainTrace domain env = none) :
    main domain env =
      { exitCode := 1
        fs := env.fs
        emailsAttempted := [(whoisErrorSubject domain, whoisErrorBody domain)]
        emailsDelivered :=
          if env.smtpOk then [(whoisErrorSubject domain, whoisErrorBody domain)]
          else [] } := by
  unfold main
  rw [h]

theorem traceOf_current_updated (d : String) (env : Env) (cu : String) :
    (traceOf d env cu).current_updated = cu := by
  cases hw : env.fs.whois_record <;> cases hc : env.fs.curl_status <;>
    simp [traceOf, hw, hc]

theorem traceOf_current_http (d : String) (env : Env) (cu : String) :
    (traceOf d env cu).current_http_status = get_http_status env.http := by
  cases hw : env.fs.whois_record <;> cases hc : env.fs.curl_status <;>
    simp [traceOf, hw, hc]

theorem traceOf_ncu (d : String) (env : Env) (cu : String) :
    (traceOf d env cu).normalized_current_http
      = normalize_http_status (get_http_status env.http) := by
  cases hw : env.fs.whois_record <;> cases hc : env.fs.curl_status <;>
    simp [traceOf, hw, hc]

theorem traceOf_prev_upd_none (d : String) {env : Env} (cu : String)
    (hw : env.fs.whois_record = none) :
    (traceOf d env cu).previous_updated = cu := by
  cases hc : env.fs.curl_status <;> simp [traceOf, hw, hc]

theorem traceOf_prev_upd_some (d : String) {env : Env} (cu : String) {c : String}
    (hw : env.fs.whois_record = some c) :
    (traceOf d env cu).previous_updated = pyStripStr c := by
  cases hc : env.fs.curl_status <;> simp [traceOf, hw, hc]

theorem traceOf_prev_http_none (d : String) {env : Env} (cu : String)
    (hc : env.fs.curl_status = none) :
    (traceOf d env cu).previous_http_status
      = normalize_http_status (get_http_status env.http) := by
  cases hw : env.fs.whois_record <;> simp [traceOf, hw, hc]

theorem traceOf_prev_http_some (d : String) {env : Env} (cu : String) {c : String}
    (hc : env.fs.curl_status = some c) :
    (traceOf d env cu).previous_http_status = pyStripStr c := by
  cases hw : env.fs.whois_record <;> simp [traceOf, hw, hc]

theorem traceOf_nph (d : String) (env : Env) (cu : String) :
    (traceOf d env cu).normalized_previous_http
      = normalize_http_status (traceOf d env cu).previous_http_status := by
  cases hw : env.fs.whois_record <;> cases hc : env.fs.curl_status <;>
    simp [traceOf, hw, hc]

theorem traceOf_whois_changed (d : String) (env : Env) (cu : String) :
    (traceOf d env cu).whois_changed
      = (cu != (traceOf d env cu).previous_updated) := by
  cases hw : env.fs.whois_record <;> cases hc : env.fs.curl_status <;>
    simp [traceOf, hw, hc]

theorem traceOf_http_changed (d : String) (env : Env) (cu : String) :
    (traceOf d env cu).http_changed
      = (normalize_http_status (get_http_status env.http)
          != normalize_http_status (traceOf d env cu).previous_http_status) := by
  cases hw : env.fs.whois_record <;> cases hc : env.fs.curl_status <;>
    simp [traceOf, hw, hc]

theorem traceOf_subject (d : String) (env : Env) (cu : String) :
    (traceOf d env cu).subject
      = if (traceOf d env cu).whois_changed || (traceOf d env cu).http_changed
        then d ++ " changed" else d ++ " same" := by
  cases hw : env.fs.whois_record <;> cases hc : env.fs.curl_status <;>
    simp [traceOf, hw, hc]

theorem traceOf_fs_whois_none (d : String) {env : Env} (cu : String)
    (hw : env.fs.whois_record = none) :
    (traceOf d env cu).fsAfterReads.whois_record = some cu := by
  cases hc : env.fs.curl_status <;> simp [traceOf, hw, hc]

theorem traceOf_fs_curl_none (d : String) {env : Env} (cu : String)
    (hc : env.fs.curl_status = none) :
    (traceOf d env cu).fsAfterReads.curl_status
      = some (normalize_http_status (get_http_status env.http)) := by
  cases hw : env.fs.whois_record <;> simp [traceOf, hw, hc]

theorem traceOf_smtp (d : String) (env : Env) (b : Bool) (cu : String) :
    traceOf d { env with smtpOk := b } cu = traceOf d env cu := rfl

/-! ### C1 -/

/-- C1, counterexample: `normalize_http_status` is not idempotent.  On
`"Z at 0 at 0xAxB"` one pass removes the single occurrence `" at 0xA"`, which
splices the surrounding text into the fresh occurrence `" at 0xB"`; the
result `"Z at 0xB"` still contains an `" at 0x<hex>"` fragment and a second
application shrinks it further to `"Z"`. -/
theorem C1_counterexample :
    normalize_http_status "Z at 0 at 0xAxB" = "Z at 0xB" ∧
    normalize_http_status (normalize_http_status "Z at 0 at 0xAxB") = "Z" ∧
    normalize_http_status (normalize_http_status "Z at 0 at 0xAxB") ≠
      normalize_http_status "Z at 0 at 0xAxB" ∧
    containsSub " at 0xB".data (normalize_http_status "Z at 0 at 0xAxB").data = true :=
  ⟨by decide, by decide, by decide, by decide⟩

/-- C1 (amended): `normalize_http_status` performs one left-to-right pass of
fragment removal followed by outer-whitespace trimming; it is idempotent on
every string whose normalized form is a fixed point of the removal pass (in
particular whenever removal created no new `" at 0x<hex>"` occurrence), but
not on all strings, since deleting a fragment can splice surrounding text
into a new occurrence. -/
theorem C1_amended_conditional_idempotence (s : String)
    (h : removeAddrs (normalize_http_status s).data = (normalize_http_status s).data) :
    normalize_http_status (normalize_http_status s) = normalize_http_status s := by
  show String.mk (pyStrip (removeAddrs (normalize_http_status s).data))
      = normalize_http_status s
  rw [h]
  show String.mk (pyStrip (pyStrip (removeAddrs s.data))) = normalize_http_status s
  rw [pyStrip_idem]
  rfl

theorem C1_witness :
    removeAddrs (normalize_http_status " Error: boom at 0x7acd50b51ac0 ").data
        = (normalize_http_status " Error: boom at 0x7acd50b51ac0 ").data ∧
    normalize_http_status (normalize_http_status " Error: boom at 0x7acd50b51ac0 ")
        = normalize_http_status " Error: boom at 0x7acd50b51ac0 " :=
  ⟨by decide, C1_amended_conditional_idempotence " Error: boom at 0x7acd50b51ac0 " (by decide)⟩

/-! ### C2 -/

/-- C2: on every non-fatal run, the whois state file ends up holding exactly
the current whois updated date and the status file exactly the normalized
current HTTP signal — unconditionally overwritten, independent of their
previous contents (the environment is arbitrary) and of whether the SMTP
delivery succeeds. -/
theorem C2_state_overwritten (domain : String) (env : Env) (cu : String)
    (h : get_whois_updated_date env.whois = some cu) :
    (main domain env).fs.whois_record = some cu ∧
    (main domain env).fs.curl_status
        = some (normalize_http_status (get_http_status env.http)) ∧
    (main domain { env with smtpOk := false }).fs = (main domain env).fs ∧
    (main domain { env with smtpOk := true }).fs = (main domain env).fs := by
  have hm := main_eq_of_trace (mainTrace_some domain h)
  have hf : get_whois_updated_date ({ env with smtpOk := false } : Env).whois = some cu := h
  have ht : get_whois_updated_date ({ env with smtpOk := true } : Env).whois = some cu := h
  have hmf := main_eq_of_trace (mainTrace_some domain hf)
  have hmt := main_eq_of_trace (mainTrace_some domain ht)
  rw [traceOf_smtp] at hmf hmt
  refine ⟨?_, ?_, ?_, ?_⟩
  · rw [hm]
    simp [traceOf_current_updated]
  · rw [hm]
    simp [traceOf_ncu]
  · rw [hmf, hm]
  · rw [hmt, hm]

def envC2 : Env :=
  ⟨⟨false, 0, "Updated Date: 2024-05-05"⟩, .success 200,
    ⟨some "2024-05-05", some "200"⟩, true⟩

theorem C2_witness :
    (main "example.com" envC2).fs.whois_record = some "2024-05-05" ∧
    (main "example.com" envC2).fs.curl_status
        = some (normalize_http_status (get_http_status envC2.http)) ∧
    (main "example.com" { envC2 with smtpOk := false }).fs = (main "example.com" envC2).fs ∧
    (main "example.com" { envC2 with smtpOk := true }).fs = (main "example.com" envC2).fs :=
  C2_state_overwritten "example.com" envC2 "2024-05-05" (by decide)

/-! ### C3 -/

/-- C3: if the whois probe yields no date, `main` sends the error
notification, leaves both state files untouched and exits with code 1, and
its whole result is independent of the HTTP probe (which in the Python
control flow has not been reached yet); on every other run it completes with
exit code 0. -/
theorem C3_fatal_whois_exit (domain : String) (env : Env) :
    (get_whois_updated_date env.whois = none →
      (main domain env).exitCode = 1 ∧
      (main domain env).fs = env.fs ∧
      (main domain env).emailsAttempted
          = [(whoisErrorSubject domain, whoisErrorBody domain)] ∧
      ∀ r : HttpResult, main domain { env with http := r } = main domain env) ∧
    (∀ cu, get_whois_updated_date env.whois = some cu →
      (main domain env).exitCode = 0) := by
  constructor
  · intro h
    have hm := main_eq_of_none (mainTrace_none domain h)
    refine ⟨by rw [hm], by rw [hm], by rw [hm], ?_⟩
    intro r
    have hr : get_whois_updated_date ({ env with http := r } : Env).whois = none := h
    have hmr := main_eq_of_none (mainTrace_none domain hr)
    rw [hmr, hm]
  · intro cu h
    rw [main_eq_of_trace (mainTrace_some domain h)]

def envC3fatal : Env :=
  ⟨⟨false, 0, "no date here"⟩, .success 200, ⟨some "2024-05-05", some "200"⟩, true⟩

theorem C3_witness :
    ((main "example.com" envC3fatal).exitCode = 1 ∧
      (main "example.com" envC3fatal).fs = envC3fatal.fs ∧
      (main "example.com" envC3fatal).emailsAttempted
          = [(whoisErrorSubject "example.com", whoisErrorBody "example.com")] ∧
      ∀ r : HttpResult, main "example.com" { envC3fatal with http := r }
          = main "example.com" envC3fatal) ∧
    (main "example.com" envC2).exitCode = 0 :=
  ⟨(C3_fatal_whois_exit "example.com" envC3fatal).1 (by decide),
   (C3_fatal_whois_exit "example.com" envC2).2 "2024-05-05" (by decide)⟩

/-! ### C4 -/

def envC4 : Env :=
  ⟨⟨false, 0, "Updated Date: 2024-05-05"⟩, .failure "Z at 0 at 0 at 0xAxAxB",
    ⟨none, none⟩, true⟩

/-- C4, counterexample: on a first run (status file absent) `main` can
report an HTTP change.  The probe's error signal normalizes in cascades:
`get_http_status` already produced `"Error: Z at 0 at 0xAxB"`, the
orchestrator normalizes it again to `"Error: Z at 0xB"` and stores that as
the first-run slot value, but comparing re-normalizes the slot to
`"Error: Z"`, so `http_changed` is `true` although no prior state existed. -/
theorem C4_counterexample :
    envC4.fs.curl_status = none ∧
    (mainTrace "example.com" envC4).map (fun t => t.http_changed) = some true :=
  ⟨rfl, by decide⟩

/-- C4 (amended): on a first run for a signal, the state file is created
with the current value of that signal (the whois date, resp. the normalized
HTTP signal); the whois signal never reports a change, and the HTTP signal
reports no change provided the normalized current HTTP signal is itself a
fixed point of normalization (always the case for numeric status codes; a
pathological error string whose normalization is still not fragment-free can
report a spurious change, see the counterexample). -/
theorem C4_first_run (domain : String) (env : Env) (cu : String)
    (h : get_whois_updated_date env.whois = some cu) :
    mainTrace domain env = some (traceOf domain env cu) ∧
    (env.fs.whois_record = none →
      (traceOf domain env cu).whois_changed = false ∧
      (traceOf domain env cu).fsAfterReads.whois_record = some cu) ∧
    (env.fs.curl_status = none →
      (traceOf domain env cu).fsAfterReads.curl_status
          = some (traceOf domain env cu).normalized_current_http ∧
      (normalize_http_status (traceOf domain env cu).normalized_current_http
          = (traceOf domain env cu).normalized_current_http →
        (traceOf domain env cu).http_changed = false)) := by
  refine ⟨mainTrace_some domain h, ?_, ?_⟩
  · intro hw
    refine ⟨?_, traceOf_fs_whois_none domain cu hw⟩
    rw [traceOf_whois_changed, traceOf_prev_upd_none domain cu hw]
    simp
  · intro hc
    refine ⟨by rw [traceOf_fs_curl_none domain cu hc, traceOf_ncu], ?_⟩
    intro hfix
    rw [traceOf_http_changed, traceOf_prev_http_none domain cu hc]
    rw [traceOf_ncu] at hfix
    rw [hfix]
    simp

def envC4w : Env :=
  ⟨⟨false, 0, "Updated Date: 2024-05-05"⟩, .success 200, ⟨none, none⟩, true⟩

theorem C4_witness :
    mainTrace "example.com" envC4w = some (traceOf "example.com" envC4w "2024-05-05") ∧
    (traceOf "example.com" envC4w "2024-05-05").whois_changed = false ∧
    (traceOf "example.com" envC4w "2024-05-05").fsAfterReads.whois_record
        = some "2024-05-05" ∧
    (traceOf "example.com" envC4w "2024-05-05").fsAfterReads.curl_status
        = some (traceOf "example.com" envC4w "2024-05-05").normalized_current_http ∧
    (traceOf "example.com" envC4w "2024-05-05").http_changed = false :=
  have h := C4_first_run "example.com" envC4w "2024-05-05" (by decide)
  ⟨h.1, (h.2.1 rfl).1, (h.2.1 rfl).2, (h.2.2 rfl).1, (h.2.2 rfl).2 (by decide)⟩

/-! ### C5 -/

/-- C5: HTTP change detection compares `normalize_http_status` of the fresh
signal with `normalize_http_status` of the previously stored signal (the
trimmed file text), so a legacy stored value whose normalization matches the
re-observed error compares equal; and when the stored signal is `"200"` and
the probe fails with any exception, a change is detected and the status file
is overwritten with the normalized error string, never the raw one. -/
theorem C5_http_change_detection (domain : String) (env : Env) (cu : String)
    (h : get_whois_updated_date env.whois = some cu) :
    (traceOf domain env cu).http_changed
        = (normalize_http_status (get_http_status env.http)
            != normalize_http_status (traceOf domain env cu).previous_http_status) ∧
    (normalize_http_status (get_http_status env.http)
        = normalize_http_status (traceOf domain env cu).previous_http_status →
      (traceOf domain env cu).http_changed = false) ∧
    (∀ e, env.http = .failure e → env.fs.curl_status = some "200" →
      (traceOf domain env cu).http_changed = true ∧
      (main domain env).fs.curl_status
          = some (normalize_http_status (get_http_status env.http))) := by
  refine ⟨traceOf_http_changed domain env cu, ?_, ?_⟩
  · intro heq
    rw [traceOf_http_changed, heq]
    simp
  · intro e he h200
    constructor
    · rw [traceOf_http_changed, traceOf_prev_http_some domain cu h200]
      have h1 : normalize_http_status (pyStripStr "200") = "200" := by decide
      rw [h1, he]
      exact bne_iff_ne.mpr
        (ne_200_of_head_E (normalize_head_E (get_http_status_failure_head e)))
    · rw [main_eq_of_trace (mainTrace_some domain h)]
      simp [traceOf_ncu]

def envC5 : Env :=
  ⟨⟨false, 0, "Updated Date: 2024-05-05"⟩, .failure "timeout at 0xABC err",
    ⟨some "2024-05-05", some "200"⟩, true⟩

def envC5b : Env :=
  ⟨⟨false, 0, "Updated Date: 2024-05-05"⟩, .success 200,
    ⟨some "2024-05-05", some "200"⟩, true⟩

theorem C5_witness :
    (traceOf "example.com" envC5 "2024-05-05").http_changed
        = (normalize_http_status (get_http_status envC5.http)
            != normalize_http_status
                (traceOf "example.com" envC5 "2024-05-05").previous_http_status) ∧
    (traceOf "example.com" envC5 "2024-05-05").http_changed = true ∧
    (main "example.com" envC5).fs.curl_status
        = some (normalize_http_status (get_http_status envC5.http)) ∧
    (traceOf "example.com" envC5b "2024-05-05").http_changed = false :=
  have h := C5_http_change_detection "example.com" envC5 "2024-05-05" (by decide)
  have hb := C5_http_change_detection "example.com" envC5b "2024-05-05" (by decide)
  ⟨h.1, (h.2.2 "timeout at 0xABC err" rfl rfl).1,
    (h.2.2 "timeout at 0xABC err" rfl rfl).2, hb.2.1 (by decide)⟩

/-! ### C6 -/

/-- C6: on the non-fatal path exactly one email is attempted, and its
subject is exactly `domain ++ " changed"` when either signal changed and
exactly `domain ++ " same"` otherwise; no other subject can occur. -/
theorem C6_subject_exact (domain : String) (env : Env) (cu : String)
    (h : get_whois_updated_date env.whois = some cu) :
    (main domain env).emailsAttempted
        = [((traceOf domain env cu).subject, (traceOf domain env cu).body)] ∧
    ((traceOf domain env cu).whois_changed = true ∨
        (traceOf domain env cu).http_changed = true →
      (traceOf domain env cu).subject = domain ++ " changed") ∧
    ((traceOf domain env cu).whois_changed = false ∧
        (traceOf domain env cu).http_changed = false →
      (traceOf domain env cu).subject = domain ++ " same") ∧
    ((traceOf domain env cu).subject = domain ++ " changed" ∨
      (traceOf domain env cu).subject = domain ++ " same") := by
  refine ⟨by rw [main_eq_of_trace (mainTrace_some domain h)], ?_, ?_, ?_⟩
  · intro hor
    rw [traceOf_subject]
    rcases hor with h1 | h1 <;> simp [h1]
  · intro hand
    rw [traceOf_subject, hand.1, hand.2]
    simp
  · rcases Bool.eq_false_or_eq_true
        ((traceOf domain env cu).whois_changed || (traceOf domain env cu).http_changed)
      with hb | hb
    · left
      rw [traceOf_subject, hb]
      simp
    · right
      rw [traceOf_subject, hb]
      simp

def envC6chg : Env :=
  ⟨⟨false, 0, "Updated Date: 2024-05-05"⟩, .success 200,
    ⟨some "2024-01-01", some "200"⟩, true⟩

def envC6same : Env :=
  ⟨⟨false, 0, "Updated Date: 2024-05-05"⟩, .success 200,
    ⟨some "2024-05-05", some "200"⟩, true⟩

theorem C6_witness :
    (main "example.com" envC6same).emailsAttempted
        = [((traceOf "example.com" envC6same "2024-05-05").subject,
            (traceOf "example.com" envC6same "2024-05-05").body)] ∧
    (traceOf "example.com" envC6chg "2024-05-05").subject = "example.com" ++ " changed" ∧
    (traceOf "example.com" envC6same "2024-05-05").subject = "example.com" ++ " same" ∧
    ((traceOf "example.com" envC6same "2024-05-05").subject = "example.com" ++ " changed" ∨
      (traceOf "example.com" envC6same "2024-05-05").subject = "example.com" ++ " same") :=
  have hc := C6_subject_exact "example.com" envC6chg "2024-05-05" (by decide)
  have hs := C6_subject_exact "example.com" envC6same "2024-05-05" (by decide)
  ⟨hs.1, hc.2.1 (Or.inl (by decide)), hs.2.2.1 ⟨by decide, by decide⟩, hs.2.2.2⟩

/-! ### C7 -/

/-- C7: `get_whois_updated_date` returns `None` on an exception, on a
non-zero exit status, and when no output line contains the exact
(case-sensitive) label `"Updated Date:"`; on a successful run, the first
line containing the label determines the result, which is the text after
that line's first colon, whitespace-trimmed. -/
theorem C7_whois_probe (o : WhoisOutcome) :
    (o.raisedException = true → get_whois_updated_date o = none) ∧
    (o.returncode ≠ 0 → get_whois_updated_date o = none) ∧
    ((∀ l ∈ pySplitlines o.stdout, containsSub updatedDateLabel l = false) →
      get_whois_updated_date o = none) ∧
    (o.raisedException = false → o.returncode = 0 →
      ∀ pre line post, pySplitlines o.stdout = pre ++ line :: post →
        (∀ l ∈ pre, containsSub updatedDateLabel l = false) →
        containsSub updatedDateLabel line = true →
        ∃ a b, breakAtColon line = some (a, b) ∧ line = a ++ ':' :: b ∧ ':' ∉ a ∧
          get_whois_updated_date o = some (String.mk (pyStrip b))) := by
  refine ⟨?_, ?_, ?_, ?_⟩
  · intro h
    unfold get_whois_updated_date
    rw [if_pos h]
  · intro h
    unfold get_whois_updated_date
    by_cases hx : o.raisedException = true
    · rw [if_pos hx]
    · rw [if_neg hx, if_pos h]
  · intro h
    unfold get_whois_updated_date
    by_cases hx : o.raisedException = true
    · rw [if_pos hx]
    · rw [if_neg hx]
      by_cases hr : o.returncode ≠ 0
      · rw [if_pos hr]
      · rw [if_neg hr, findUpdatedDate_eq_none _ h]
        rfl
  · intro hx hr pre line post hsplit hpre hline
    obtain ⟨a, b, h1, h2, h3⟩ := breakAtColon_eq_some (colon_mem_of_containsSub hline)
    refine ⟨a, b, h1, h2, h3, ?_⟩
    unfold get_whois_updated_date
    rw [if_neg (by simp [hx]), if_neg (by simp [hr]), hsplit,
      findUpdatedDate_append _ _ hpre, findUpdatedDate_cons_found post hline h1]
    rfl

def woC7exn : WhoisOutcome := ⟨true, 0, "Updated Date: 2024-05-05"⟩

def woC7rc : WhoisOutcome := ⟨false, 2, "Updated Date: 2024-05-05"⟩

def woC7low : WhoisOutcome := ⟨false, 0, "updated date: 2024-05-05\nfoo"⟩

def woC7ok : WhoisOutcome :=
  ⟨false, 0, "Domain Name: EXAMPLE.COM\nUpdated Date: 2024-05-05\nRegistrar: X"⟩

theorem C7_witness :
    get_whois_updated_date woC7exn = none ∧
    get_whois_updated_date woC7rc = none ∧
    get_whois_updated_date woC7low = none ∧
    (∃ a b, breakAtColon "Updated Date: 2024-05-05".data = some (a, b) ∧
      "Updated Date: 2024-05-05".data = a ++ ':' :: b ∧ ':' ∉ a ∧
      get_whois_updated_date woC7ok = some (String.mk (pyStrip b))) ∧
    get_whois_updated_date woC7ok = some "2024-05-05" :=
  ⟨(C7_whois_probe woC7exn).1 rfl,
   (C7_whois_probe woC7rc).2.1 (by decide),
   (C7_whois_probe woC7low).2.2.1 (by decide),
   (C7_whois_probe woC7ok).2.2.2 rfl rfl ["Domain Name: EXAMPLE.COM".data]
     "Updated Date: 2024-05-05".data ["Registrar: X".data]
     (by decide) (by decide) (by decide),
   by decide⟩

/-! ### C8 -/

/-- C8, counterexample: the claim omits the whitespace trimming.  For the
exception text `"boom "` the claim predicts the return value
`"Error: boom "` (it contains no `" at 0x<hex>"` fragment to remove), but
the code passes the message through `normalize_http_status`, which also
strips, returning `"Error: boom"`. -/
theorem C8_counterexample :
    get_http_status (.failure "boom ") = "Error: boom" ∧
    get_http_status (.failure "boom ") ≠ "Error: boom " :=
  ⟨by decide, by decide⟩

/-- C8 (amended): on success the status code is rendered as decimal text;
on any exception the result is `normalize_http_status ("Error: " ++ text)` —
one left-to-right removal pass over `" at 0x<hex>"` fragments followed by
trimming of surrounding whitespace — and is in particular always already
trimmed; the function is total (no exception propagates). -/
theorem C8_http_probe (e : String) (n : Nat) :
    get_http_status (.success n) = toString n ∧
    get_http_status (.failure e) = normalize_http_status ("Error: " ++ e) ∧
    pyStripStr (get_http_status (.failure e)) = get_http_status (.failure e) :=
  ⟨rfl, rfl, pyStripStr_normalize ("Error: " ++ e)⟩

/-! ### C9 -/

/-- C9: when the first label-bearing line has a colon before the label, the
returned value is the trimmed text after the line's first colon — which can
itself still contain the literal `"Updated Date:"` label — and any lines
after the first label-bearing line are ignored. -/
theorem C9_first_colon_wins (a b : List Char) (pre post : List (List Char))
    (hpre : ∀ l ∈ pre, containsSub updatedDateLabel l = false)
    (hna : ':' ∉ a)
    (hb : containsSub updatedDateLabel b = true) :
    findUpdatedDate (pre ++ (a ++ ':' :: b) :: post) = some (pyStrip b) := by
  have hline : containsSub updatedDateLabel (a ++ ':' :: b) = true := by
    rw [containsSub_iff] at hb ⊢
    exact hb.trans ⟨a ++ [':'], [], by simp⟩
  rw [findUpdatedDate_append _ _ hpre,
    findUpdatedDate_cons_found post hline (breakAtColon_append a b hna)]

theorem C9_witness :
    findUpdatedDate (["Domain Name: EXAMPLE.COM".data] ++
        ("Note".data ++ ':' :: " Updated Date: 2024-05-05".data) ::
        ["Updated Date: 1999-01-01".data])
      = some (pyStrip " Updated Date: 2024-05-05".data) ∧
    containsSub updatedDateLabel (pyStrip " Updated Date: 2024-05-05".data) = true :=
  ⟨C9_first_colon_wins "Note".data " Updated Date: 2024-05-05".data
     ["Domain Name: EXAMPLE.COM".data] ["Updated Date: 1999-01-01".data]
     (by decide) (by decide) (by decide),
   by decide⟩

/-! ### C10 -/

/-- C10: every value `main` persists is already whitespace-trimmed — the
whois date is trimmed at extraction, the HTTP signal by normalization — so
the next run's read (the file's text, trimmed) returns exactly the value the
previous run wrote. -/
theorem C10_round_trip (domain : String) (env : Env) (cu : String)
    (h : get_whois_updated_date env.whois = some cu) :
    pyStripStr cu = cu ∧
    pyStripStr (traceOf domain env cu).normalized_current_http
        = (traceOf domain env cu).normalized_current_http ∧
    (main domain env).fs
        = ⟨some cu, some (traceOf domain env cu).normalized_current_http⟩ ∧
    (∀ (domain2 : String) (env2 : Env) (cu2 : String),
      env2.fs = (main domain env).fs →
      get_whois_updated_date env2.whois = some cu2 →
      (traceOf domain2 env2 cu2).previous_updated = cu ∧
      (traceOf domain2 env2 cu2).previous_http_status
          = (traceOf domain env cu).normalized_current_http) := by
  have h1 : pyStripStr cu = cu := by
    unfold get_whois_updated_date at h
    by_cases hx : env.whois.raisedException = true
    · rw [if_pos hx] at h
      simp at h
    · rw [if_neg hx] at h
      by_cases hr : env.whois.returncode ≠ 0
      · rw [if_pos hr] at h
        simp at h
      · rw [if_neg hr] at h
        cases hf : findUpdatedDate (pySplitlines env.whois.stdout) with
        | none =>
          rw [hf] at h
          simp at h
        | some v =>
          rw [hf] at h
          have hcu : String.mk v = cu := by simpa using h
          rw [← hcu]
          show String.mk (pyStrip v) = String.mk v
          rw [findUpdatedDate_stripped _ v hf]
  have h2 : pyStripStr (traceOf domain env cu).normalized_current_http
      = (traceOf domain env cu).normalized_current_http := by
    rw [traceOf_ncu]
    exact pyStripStr_normalize _
  have h3 : (main domain env).fs
      = ⟨some cu, some (traceOf domain env cu).normalized_current_http⟩ := by
    rw [main_eq_of_trace (mainTrace_some domain h), traceOf_current_updated]
  refine ⟨h1, h2, h3, ?_⟩
  intro domain2 env2 cu2 hfs h2'
  have hfs2 : env2.fs
      = ⟨some cu, some (traceOf domain env cu).normalized_current_http⟩ := by
    rw [hfs, h3]
  constructor
  · rw [traceOf_prev_upd_some domain2 cu2
      (show env2.fs.whois_record = some cu by rw [hfs2])]
    exact h1
  · rw [traceOf_prev_http_some domain2 cu2
      (show env2.fs.curl_status
          = some (traceOf domain env cu).normalized_current_http by rw [hfs2])]
    exact h2

def envC10 : Env :=
  ⟨⟨false, 0, "Updated Date: 2024-05-05"⟩, .success 200, ⟨none, none⟩, true⟩

def envC10b : Env :=
  ⟨⟨false, 0, "Updated Date: 2024-05-05"⟩, .success 200,
    ⟨some "2024-05-05", some "200"⟩, true⟩

theorem C10_witness :
    pyStripStr "2024-05-05" = "2024-05-05" ∧
    pyStripStr (traceOf "example.com" envC10 "2024-05-05").normalized_current_http
        = (traceOf "example.com" envC10 "2024-05-05").normalized_current_http ∧
    (main "example.com" envC10).fs
        = ⟨some "2024-05-05",
            some (traceOf "example.com" envC10 "2024-05-05").normalized_current_http⟩ ∧
    (traceOf "example.com" envC10b "2024-05-05").previous_updated = "2024-05-05" ∧
    (traceOf "example.com" envC10b "2024-05-05").previous_http_status
        = (traceOf "example.com" envC10 "2024-05-05").normalized_current_http :=
  have h := C10_round_trip "example.com" envC10 "2024-05-05" (by decide)
  have h4 := h.2.2.2 "example.com" envC10b "2024-05-05" (by decide) (by decide)
  ⟨h.1, h.2.1, h.2.2.1, h4.1, h4.2⟩

end DomainSentinel
